import Mathlib

/-!
Verification of the client-side authentication subsystem of the
Atlantis-GR/svelte-components repository (package `Svelte.Auth`).

The definitions below are a shallow embedding of the TypeScript sources:

* `src/Svelte.Auth/src/lib/stores.ts` — derived session views
  (`roles`, `isAdmin`, `authorizationHeader`);
* `src/Svelte.Auth/src/lib/auth.service.ts` — `AuthService`
  (`onUserChange`, `getAuthorizationHeaderValue`, `hasRole`, `isAdmin`,
  `signinRedirect` argument construction);
* `src/Svelte.Auth/src/lib/guards.ts` — `canActivate`;
* `src/Svelte.Auth/src/lib/interceptor.ts` — `createAuthFetch`
  (`shouldAddAuthHeader` and the `authFetch` wrapper).

Stateful and asynchronous behaviour (broker calls, injected callbacks,
the fetch result) is made explicit as action traces and returned values.
-/

set_option autoImplicit false

namespace SvelteAuth

/-- JS primitive value, used for open claim maps where a claim may hold a
boolean, a string or a number (the `admin` claim is compared with `=== true`). -/
inductive JsVal where
  | bool (b : Bool)
  | str (s : String)
  | num (n : Int)
  deriving DecidableEq, Repr

/-- Shape of the `role` claim in `UserProfile`: `role?: string | string[]`.
`absent` is TypeScript `undefined`. -/
inductive RoleClaim where
  | absent
  | scalar (s : String)
  | array (rs : List String)
  deriving DecidableEq, Repr

/-- The claims carried by the profile that the verified code reads
(`types.ts` `UserProfile`; open map fields restricted to the ones consulted). -/
structure UserProfile where
  sub : String := ""
  given_name : Option String := none
  family_name : Option String := none
  email : Option String := none
  name : Option String := none
  role : RoleClaim := .absent
  admin : Option JsVal := none
  deriving DecidableEq, Repr

/-- The oidc-client-ts `User` fields the verified code reads. `expires_at`
is epoch seconds. -/
structure User where
  token_type : String := ""
  access_token : String := ""
  expires_at : Option Nat := none
  profile : UserProfile := {}
  deriving DecidableEq, Repr

/-- JS truthiness of an optional string: `undefined` and the empty string
are falsy. -/
def jsTruthy : Option String → Bool
  | none => false
  | some s => s ≠ ""

/-- JS `a || b` for an optional string `a` with string default `b`. -/
def jsOrStr (o : Option String) (d : String) : String :=
  match o with
  | some s => if s ≠ "" then s else d
  | none => d

/-- Character-list prefix test (model of the JS string builtins). -/
def listIsPrefix : List Char → List Char → Bool
  | [], _ => true
  | _ :: _, [] => false
  | a :: as, b :: bs => a == b && listIsPrefix as bs

/-- Character-list substring test: does `sub` occur contiguously in the list? -/
def listIsInfix (sub : List Char) : List Char → Bool
  | [] => listIsPrefix sub []
  | c :: rest => listIsPrefix sub (c :: rest) || listIsInfix sub rest

/-- Model of JS `s.includes(sub)`. -/
def strIncludes (s sub : String) : Bool := listIsInfix sub.toList s.toList

/-- Model of JS `s.startsWith(p)`. -/
def strStartsWith (s p : String) : Bool := listIsPrefix p.toList s.toList

/-- `stores.ts` `roles` derivation: `[]` when the profile is null or the role
claim is falsy, the singleton for a scalar claim, the array itself otherwise. -/
def roles (p : Option UserProfile) : List String :=
  match p with
  | none => []
  | some prof =>
    match prof.role with
    | .absent => []
    | .scalar s => if s = "" then [] else [s]
    | .array rs => rs

/-- `stores.ts` `isAdmin` derivation: false for a null profile; true when the
`admin` claim is strictly boolean `true`; otherwise whether the normalized
roles contain `"Administrator"`. -/
def isAdmin (p : Option UserProfile) : Bool :=
  match p with
  | none => false
  | some prof =>
    if prof.admin = some (JsVal.bool true) then true
    else (roles (some prof)).contains "Administrator"

/-- `AuthService.hasRole`: false for a null profile or falsy role claim;
membership for an array claim; strict equality for a scalar claim. -/
def hasRole (p : Option UserProfile) (roleName : String) : Bool :=
  match p with
  | none => false
  | some prof =>
    match prof.role with
    | .absent => false
    | .scalar s => if s = "" then false else s == roleName
    | .array rs => rs.contains roleName

/-- `AuthService.isAdmin`: admin flag strictly `true`, else
`hasRole "Administrator"`. -/
def serviceIsAdmin (p : Option UserProfile) : Bool :=
  match p with
  | none => false
  | some prof =>
    if prof.admin = some (JsVal.bool true) then true
    else hasRole (some prof) "Administrator"

/-- `stores.ts` `authorizationHeader` derived store: the template
`tokenType ++ " " ++ accessToken` when the user value is non-null, else `""`. -/
def authorizationHeader (u : Option User) : String :=
  match u with
  | some user => user.token_type ++ " " ++ user.access_token
  | none => ""

/-- `AuthService.getAuthorizationHeaderValue`: identical logic over the
service's `currentUser` field. -/
def getAuthorizationHeaderValue (currentUser : Option User) : String :=
  match currentUser with
  | some u => u.token_type ++ " " ++ u.access_token
  | none => ""

/-- The session-absence notion stated by the specification (refinement side,
written from the spec's words, to be compared against the source-derived
`authorizationHeader`): a session counts as absent if it is null, its access
token is missing, or its expiry time has passed. -/
def specSessionAbsent (u : Option User) (now : Nat) : Bool :=
  match u with
  | none => true
  | some user =>
    user.access_token = "" ||
      (match user.expires_at with
       | some t => t < now
       | none => false)

/-- `types.ts` `InterceptorConfig`, with the two injected callbacks modelled
by their presence (the interceptor only checks whether they are provided and
then invokes them). -/
structure InterceptorConfig where
  apiBaseUrl : Option String := none
  additionalUrls : List String := []
  excludeUrls : List String := []
  hasOnUnauthorized : Bool := false
  hasOnForbidden : Bool := false
  deriving DecidableEq, Repr

/-- First test of `shouldAddAuthHeader`: i18n/translation assets. -/
def isLocalizationAsset (url : String) : Bool :=
  strIncludes url "i18n" || strIncludes url "/locales/"

/-- Second test of `shouldAddAuthHeader`: the configured exclusion list. -/
def matchesExclude (cfg : InterceptorConfig) (url : String) : Bool :=
  cfg.excludeUrls.any (fun e => strIncludes url e)

/-- Third test of `shouldAddAuthHeader`: a truthy configured base API URL
that prefixes the request URL. -/
def matchesBase (cfg : InterceptorConfig) (url : String) : Bool :=
  match cfg.apiBaseUrl with
  | some b => (b != "") && strStartsWith url b
  | none => false

/-- Fourth test of `shouldAddAuthHeader`: the explicit inclusion list. -/
def matchesAdditional (cfg : InterceptorConfig) (url : String) : Bool :=
  cfg.additionalUrls.any (fun a => strStartsWith url a)

/-- `interceptor.ts` `shouldAddAuthHeader`, translated clause by clause:
skip i18n assets, then the exclusion list; include on a base-URL match or an
inclusion-list match; include everything when neither a truthy base URL nor
any inclusion entry is configured; otherwise refuse. -/
def shouldAddAuthHeader (cfg : InterceptorConfig) (url : String) : Bool :=
  if isLocalizationAsset url then false
  else if matchesExclude cfg url then false
  else if matchesBase cfg url then true
  else if matchesAdditional cfg url then true
  else if !(jsTruthy cfg.apiBaseUrl) && cfg.additionalUrls.isEmpty then true
  else false

/-- Request headers as a JS object: an association list of header name/value
pairs (object keys are unique and case-sensitive). -/
abbrev Headers := List (String × String)

/-- First value stored under a key. -/
def lookupHeader (h : Headers) (k : String) : Option String :=
  match h with
  | [] => none
  | (k', v) :: rest => if k' = k then some v else lookupHeader rest k

/-- Model of the object spread `{...h, [k]: v}` as the resulting key/value
mapping: every entry for `k` is dropped and the pair `(k, v)` is present;
all other entries are kept. -/
def setHeader (h : Headers) (k v : String) : Headers :=
  match h with
  | [] => [(k, v)]
  | (k', v') :: rest =>
    if k' = k then setHeader rest k v else (k', v') :: setHeader rest k v

/-- Observable calls the interceptor makes on the auth service and the
injected callbacks. -/
inductive BrokerAction where
  | removeUser
  | signoutRedirect
  | callUnauthorized
  | callForbidden
  deriving DecidableEq, Repr

/-- An HTTP response as far as the interceptor inspects it. -/
structure Response where
  status : Nat
  body : String := ""
  deriving DecidableEq, Repr

/-- Everything observable about one `authFetch` call: the headers actually
sent, the broker/callback actions performed after the response arrived, and
the value returned to the caller. -/
structure FetchOutcome where
  sentHeaders : Headers
  actions : List BrokerAction
  result : Response
  deriving DecidableEq, Repr

/-- `interceptor.ts` `authFetch` (the resolved-response path): attach the
Authorization header when the URL qualifies and the header value is
non-empty; on 401, remove the user, initiate the sign-out redirect and then
call the injected unauthorized callback when present; on 403, call the
injected forbidden callback only; finally return the response unchanged. -/
def authFetch (cfg : InterceptorConfig) (authHeaderValue : String) (url : String)
    (initHeaders : Headers) (response : Response) : FetchOutcome :=
  let requestHeaders :=
    if shouldAddAuthHeader cfg url then
      if authHeaderValue ≠ "" then setHeader initHeaders "Authorization" authHeaderValue
      else initHeaders
    else initHeaders
  let unauthorizedActions :=
    if response.status = 401 then
      [BrokerAction.removeUser, BrokerAction.signoutRedirect] ++
        (if cfg.hasOnUnauthorized then [BrokerAction.callUnauthorized] else [])
    else []
  let forbiddenActions :=
    if response.status = 403 then
      (if cfg.hasOnForbidden then [BrokerAction.callForbidden] else [])
    else []
  { sentHeaders := requestHeaders
  , actions := unauthorizedActions ++ forbiddenActions
  , result := response }

/-- A run of `n` concurrent `authFetch` calls that all resolve with a 401
response: in the browser's single-threaded event loop each continuation runs
the 401 branch once, so the run's broker-action trace is the concatenation of
the per-request traces. -/
def concurrent401Run (cfg : InterceptorConfig) (authHeaderValue url : String)
    (initHeaders : Headers) : Nat → List BrokerAction
  | 0 => []
  | n + 1 =>
    (authFetch cfg authHeaderValue url initHeaders { status := 401 }).actions ++
      concurrent401Run cfg authHeaderValue url initHeaders n

/-- The `AuthService` observer state: the current user and the registered
user-change callbacks (identified by opaque handler ids, in registration
order). -/
structure BrokerState where
  currentUser : Option User := none
  callbacks : List Nat := []
  deriving DecidableEq, Repr

/-- `AuthService.onUserChange`: push the callback, then invoke it exactly
once, synchronously, with the current user. The second component is the
trace of handler invocations performed before the call returns. -/
def onUserChange (st : BrokerState) (handler : Nat) :
    BrokerState × List (Nat × Option User) :=
  ({ st with callbacks := st.callbacks ++ [handler] }, [(handler, st.currentUser)])

/-- The `this.currentUser = user; this.notifyUserChange(user)` pattern used
throughout `AuthService`: set the field, then call every registered callback
with the new value. -/
def setUserAndNotify (st : BrokerState) (u : Option User) :
    BrokerState × List (Nat × Option User) :=
  let st' := { st with currentUser := u }
  (st', st'.callbacks.map (fun c => (c, u)))

/-- A history of session changes applied in order. -/
def applyChanges (st : BrokerState) (us : List (Option User)) : BrokerState :=
  us.foldl (fun s u => (setUserAndNotify s u).1) st

/-- `types.ts` `SignInRedirectOptions`. -/
structure SignInRedirectOptions where
  location : Option String := none
  promptRegister : Option Bool := none
  tenant : Option String := none
  deriving DecidableEq, Repr

/-- The arguments `AuthService.signinRedirect` hands to the protocol client:
the protocol `state` payload (the wrapped return URL), the register
operation flag, and the acr value. -/
structure SigninArgs where
  stateUrl : Option String
  registerOperation : Bool
  acrValues : Option String
  deriving DecidableEq, Repr

/-- `AuthService.signinRedirect` argument construction: `state = {url}` when
a truthy location is given; `operation=register` exactly when
`promptRegister === true`; `acr_values = "tenant:<t>"` for a truthy tenant. -/
def signinRedirectArgs (o : SignInRedirectOptions) : SigninArgs :=
  { stateUrl :=
      match o.location with
      | some l => if l ≠ "" then some l else none
      | none => none
  , registerOperation := o.promptRegister == some true
  , acrValues :=
      match o.tenant with
      | some t => if t ≠ "" then some ("tenant:" ++ t) else none
      | none => none }

/-- `types.ts` `RouteGuardOptions`. -/
structure RouteGuardOptions where
  returnUrl : Option String := none
  requiredRoles : Option (List String) := none
  promptRegister : Option Bool := none
  tenant : Option String := none
  deriving DecidableEq, Repr

/-- Observable broker calls made by the guard. -/
inductive GuardAction where
  | signin (args : SigninArgs)
  deriving DecidableEq, Repr

/-- `guards.ts` `canActivate`: when not logged in, compute the return URL
(falling back to the current location), issue one sign-in redirect carrying
it, and produce `false`; when logged in with a non-empty `requiredRoles`
list, produce whether any required role is among the current roles; `true`
otherwise. The second component is the trace of sign-in redirects issued. -/
def canActivate (isLoggedIn : Bool) (currentLocation : String)
    (currentRoles : List String) (options : RouteGuardOptions) :
    Bool × List GuardAction :=
  if !isLoggedIn then
    let returnUrl := jsOrStr options.returnUrl currentLocation
    (false,
      [GuardAction.signin (signinRedirectArgs
        { location := some returnUrl
        , promptRegister := options.promptRegister
        , tenant := options.tenant })])
  else
    match options.requiredRoles with
    | some rs =>
      if rs.length > 0 then
        (rs.any (fun r => currentRoles.contains r), [])
      else (true, [])
    | none => (true, [])

/-! Helper lemmas shared by the claim theorems. -/

theorem lookupHeader_setHeader_same (h : Headers) (k v : String) :
    lookupHeader (setHeader h k v) k = some v := by
  induction h with
  | nil => simp [setHeader, lookupHeader]
  | cons p rest ih =>
    obtain ⟨a, b⟩ := p
    by_cases hak : a = k
    · simpa [setHeader, hak] using ih
    · simpa [setHeader, lookupHeader, hak] using ih

theorem lookupHeader_setHeader_other (h : Headers) (k v k' : String) (hne : k' ≠ k) :
    lookupHeader (setHeader h k v) k' = lookupHeader h k' := by
  induction h with
  | nil => simp [setHeader, lookupHeader, Ne.symm hne]
  | cons p rest ih =>
    obtain ⟨a, b⟩ := p
    by_cases hak : a = k
    · simpa [setHeader, lookupHeader, hak, Ne.symm hne] using ih
    · by_cases hak' : a = k'
      · simp [setHeader, lookupHeader, hak, hak', hne]
      · simpa [setHeader, lookupHeader, hak, hak'] using ih

theorem authFetch_401_actions (cfg : InterceptorConfig) (v url : String) (h : Headers)
    (resp : Response) (h401 : resp.status = 401) :
    (authFetch cfg v url h resp).actions =
      [BrokerAction.removeUser, BrokerAction.signoutRedirect] ++
        (if cfg.hasOnUnauthorized then [BrokerAction.callUnauthorized] else []) := by
  simp [authFetch, h401]

theorem matchesBase_of_not_truthy (cfg : InterceptorConfig) (url : String)
    (h : jsTruthy cfg.apiBaseUrl = false) : matchesBase cfg url = false := by
  cases hc : cfg.apiBaseUrl with
  | none => simp [matchesBase, hc]
  | some b =>
    have hb : b = "" := by simpa [jsTruthy, hc] using h
    simp [matchesBase, hc, hb]

theorem jsOrStr_ne_empty (o : Option String) (d : String) (hd : d ≠ "") :
    jsOrStr o d ≠ "" := by
  cases o with
  | none => exact hd
  | some s => by_cases hs : s = "" <;> simp [jsOrStr, hs, hd]

theorem applyChanges_currentUser (us : List (Option User)) :
    ∀ st : BrokerState, (applyChanges st us).currentUser = us.getLast?.getD st.currentUser := by
  induction us with
  | nil => intro st; rfl
  | cons u rest ih =>
    intro st
    have h1 : applyChanges st (u :: rest) = applyChanges { st with currentUser := u } rest := rfl
    rw [h1, ih]
    cases rest with
    | nil => rfl
    | cons r rs =>
      have hsome : (r :: rs).getLast? ≠ none := by
        simp [List.getLast?_eq_none_iff]
      obtain ⟨x, hx⟩ := Option.ne_none_iff_exists'.mp hsome
      simp [List.getLast?_cons_cons, hx]

/-! Claim theorems. -/

/-- C1 counterexample: with five concurrent authorized requests all resolving
with status 401, `authFetch` performs the session removal and the sign-out
redirect five times across the run — not exactly once as the claim states. -/
theorem claim1_counterexample :
    (concurrent401Run {} "" "u" [] 5).count BrokerAction.removeUser = 5 ∧
    (concurrent401Run {} "" "u" [] 5).count BrokerAction.signoutRedirect = 5 ∧
    (concurrent401Run {} "" "u" [] 5).count BrokerAction.removeUser ≠ 1 := by
  decide

/-- C1 (amended): `authFetch` performs the 401 handling unconditionally per
response, with no deduplication across concurrent requests: in a run of `n`
concurrent requests all returning 401, `removeUser` and `signoutRedirect`
are each invoked exactly `n` times (once per 401 response), not once. -/
theorem claim1_signout_once_per_401_response (cfg : InterceptorConfig)
    (v url : String) (h : Headers) (n : Nat) :
    (concurrent401Run cfg v url h n).count BrokerAction.removeUser = n ∧
    (concurrent401Run cfg v url h n).count BrokerAction.signoutRedirect = n := by
  induction n with
  | zero => simp [concurrent401Run]
  | succ n ih =>
    obtain ⟨ih1, ih2⟩ := ih
    have hact := authFetch_401_actions cfg v url h { status := 401 } rfl
    cases hcb : cfg.hasOnUnauthorized <;>
      simp [concurrent401Run, hact, hcb, List.count_append, List.count_cons, ih1, ih2]

/-- C2: for every request through `authFetch` whose response has status 401,
the trace of broker calls starts with `removeUser` followed by
`signoutRedirect`, in that order, before the call returns (the injected
unauthorized callback, when configured, is called after those two), and the
value returned to the caller is still the original 401 response object. -/
theorem claim2_authFetch_401_handling (cfg : InterceptorConfig) (v url : String)
    (h : Headers) (resp : Response) (h401 : resp.status = 401) :
    (authFetch cfg v url h resp).actions =
      [BrokerAction.removeUser, BrokerAction.signoutRedirect] ++
        (if cfg.hasOnUnauthorized then [BrokerAction.callUnauthorized] else []) ∧
    (authFetch cfg v url h resp).result = resp :=
  ⟨authFetch_401_actions cfg v url h resp h401, rfl⟩

/-- C2 witness: the 401 handling at a concrete request. -/
theorem claim2_witness :
    (authFetch {} "" "u" [] { status := 401 }).actions =
      [BrokerAction.removeUser, BrokerAction.signoutRedirect] ++
        (if ({} : InterceptorConfig).hasOnUnauthorized
          then [BrokerAction.callUnauthorized] else []) ∧
    (authFetch {} "" "u" [] { status := 401 }).result = { status := 401 } :=
  claim2_authFetch_401_handling {} "" "u" [] { status := 401 } rfl

/-- C8: for every request through `authFetch` whose response has status 403,
only the injected forbidden callback is invoked (and only when configured);
`removeUser` and `signoutRedirect` are not called, and the 403 response
object is returned to the caller. -/
theorem claim8_authFetch_403_forbidden_only (cfg : InterceptorConfig) (v url : String)
    (h : Headers) (resp : Response) (h403 : resp.status = 403) :
    (authFetch cfg v url h resp).actions =
      (if cfg.hasOnForbidden then [BrokerAction.callForbidden] else []) ∧
    BrokerAction.removeUser ∉ (authFetch cfg v url h resp).actions ∧
    BrokerAction.signoutRedirect ∉ (authFetch cfg v url h resp).actions ∧
    (authFetch cfg v url h resp).result = resp := by
  have hne : resp.status ≠ 401 := by rw [h403]; decide
  refine ⟨?_, ?_, ?_, rfl⟩ <;>
    cases hcb : cfg.hasOnForbidden <;> simp [authFetch, h403, hne, hcb]

/-- C8 witness: the 403 handling at a concrete request with a configured
forbidden callback. -/
theorem claim8_witness :
    (authFetch { hasOnForbidden := true } "" "u" [] { status := 403 }).actions =
      (if ({ hasOnForbidden := true } : InterceptorConfig).hasOnForbidden
        then [BrokerAction.callForbidden] else []) ∧
    BrokerAction.removeUser ∉
      (authFetch { hasOnForbidden := true } "" "u" [] { status := 403 }).actions ∧
    BrokerAction.signoutRedirect ∉
      (authFetch { hasOnForbidden := true } "" "u" [] { status := 403 }).actions ∧
    (authFetch { hasOnForbidden := true } "" "u" [] { status := 403 }).result =
      { status := 403 } :=
  claim8_authFetch_403_forbidden_only { hasOnForbidden := true } "" "u" []
    { status := 403 } rfl

/-- C3: the header-attachment decision, per request URL: false when the URL
is a localization/translation asset or matches the exclusion list; true (when
not excluded) when the URL matches the configured base API URL or the
explicit inclusion list; and when neither a truthy base API URL nor any
inclusion entry is configured, true for every non-excluded URL (include by
default, opt-out model). -/
theorem claim3_shouldAddAuthHeader_rules (cfg : InterceptorConfig) (url : String) :
    ((isLocalizationAsset url = true ∨ matchesExclude cfg url = true) →
        shouldAddAuthHeader cfg url = false) ∧
    (isLocalizationAsset url = false → matchesExclude cfg url = false →
        (matchesBase cfg url = true ∨ matchesAdditional cfg url = true) →
        shouldAddAuthHeader cfg url = true) ∧
    (isLocalizationAsset url = false → matchesExclude cfg url = false →
        jsTruthy cfg.apiBaseUrl = false → cfg.additionalUrls = [] →
        shouldAddAuthHeader cfg url = true) := by
  refine ⟨?_, ?_, ?_⟩
  · rintro (hl | he)
    · simp [shouldAddAuthHeader, hl]
    · by_cases hl : isLocalizationAsset url <;> simp [shouldAddAuthHeader, hl, he]
  · intro hl he hin
    rcases hin with hb | ha
    · simp [shouldAddAuthHeader, hl, he, hb]
    · by_cases hb : matchesBase cfg url <;> simp [shouldAddAuthHeader, hl, he, hb, ha]
  · intro hl he ht hadd
    have hb : matchesBase cfg url = false := matchesBase_of_not_truthy cfg url ht
    have ha : matchesAdditional cfg url = false := by simp [matchesAdditional, hadd]
    simp [shouldAddAuthHeader, hl, he, hb, ha, ht, hadd]

/-- C4 counterexample: a non-null user whose expiry time (epoch second 0) has
passed at `now = 100` counts as an absent session under the claim, yet the
`authorizationHeader` derivation still yields the non-empty header
`"Bearer tok"`, because it only checks the value for null-ness. -/
theorem claim4_counterexample :
    specSessionAbsent
      (some { token_type := "Bearer", access_token := "tok", expires_at := some 0 })
      100 = true ∧
    authorizationHeader
      (some { token_type := "Bearer", access_token := "tok", expires_at := some 0 }) =
      "Bearer tok" ∧
    ("Bearer tok" : String) ≠ "" := by
  refine ⟨by decide, rfl, by decide⟩

/-- C4 (amended): the derived `authorizationHeader` value equals
`"<tokenType> <accessToken>"` exactly when the user value is non-null, and
equals the empty string exactly when the user value is null; the derivation
does not consult the access token's presence or the expiry time, so a
non-null expired session still yields a non-empty header. -/
theorem claim4_header_tracks_nullness_only (u : Option User) :
    (∀ x : User, authorizationHeader (some x) = x.token_type ++ " " ++ x.access_token) ∧
    authorizationHeader none = "" ∧
    (authorizationHeader u = "" ↔ u = none) := by
  refine ⟨fun x => rfl, rfl, ?_⟩
  cases u with
  | none => simp [authorizationHeader]
  | some x =>
    simp only [authorizationHeader]
    constructor
    · intro hx
      have hlen := congrArg String.length hx
      rw [String.length_append, String.length_append] at hlen
      have h1 : (" " : String).length = 1 := rfl
      have h0 : ("" : String).length = 0 := rfl
      omega
    · intro hx
      cases hx

/-- C5: subscribing after any prior history of session changes invokes the
handler exactly once, synchronously within the subscribe call, with the
current (latest) session value — a single call, never a replay of the
earlier change events. -/
theorem claim5_subscribe_single_replay (st0 : BrokerState) (us : List (Option User))
    (handler : Nat) :
    (onUserChange (applyChanges st0 us) handler).2 =
      [(handler, us.getLast?.getD st0.currentUser)] ∧
    (onUserChange (applyChanges st0 us) handler).2.length = 1 := by
  constructor
  · show [(handler, (applyChanges st0 us).currentUser)] = _
    rw [applyChanges_currentUser]
  · rfl

/-- C6: with no authenticated session, `canActivate` issues exactly one
sign-in redirect whose protocol state carries the given return URL
(defaulting to the current location) so that it round-trips, and produces
`false`; with an authenticated session and a non-empty `requiredRoles` list,
it produces `true` exactly when some required role is among the current
roles (ANY-of semantics). -/
theorem claim6_canActivate_redirect_and_roles (currentLocation : String)
    (currentRoles : List String) (options : RouteGuardOptions)
    (hloc : currentLocation ≠ "") :
    ((canActivate false currentLocation currentRoles options).1 = false ∧
      (canActivate false currentLocation currentRoles options).2 =
        [GuardAction.signin (signinRedirectArgs
          { location := some (jsOrStr options.returnUrl currentLocation)
          , promptRegister := options.promptRegister
          , tenant := options.tenant })] ∧
      (signinRedirectArgs
          { location := some (jsOrStr options.returnUrl currentLocation)
          , promptRegister := options.promptRegister
          , tenant := options.tenant }).stateUrl =
        some (jsOrStr options.returnUrl currentLocation)) ∧
    (∀ rs : List String, options.requiredRoles = some rs → rs ≠ [] →
      (canActivate true currentLocation currentRoles options).1 =
        rs.any (fun r => currentRoles.contains r) ∧
      (canActivate true currentLocation currentRoles options).2 = []) := by
  have hru : jsOrStr options.returnUrl currentLocation ≠ "" :=
    jsOrStr_ne_empty options.returnUrl currentLocation hloc
  refine ⟨⟨rfl, rfl, by simp [signinRedirectArgs, hru]⟩, ?_⟩
  intro rs hrs hne
  have hlen : 0 < rs.length := List.length_pos.mpr hne
  constructor <;> simp [canActivate, hrs, hlen]

/-- C6 witness: with no session and `returnUrl = "/reports"` the guard
produces false, and with a session holding role `User` the ANY-of role check
against `["Admin", "User"]` is the computed intersection test. -/
theorem claim6_witness :
    (canActivate false "/home" [] { returnUrl := some "/reports" }).1 = false ∧
    (canActivate true "/h" ["User"] { requiredRoles := some ["Admin", "User"] }).1 =
      (["Admin", "User"].any (fun r => (["User"] : List String).contains r)) :=
  ⟨(claim6_canActivate_redirect_and_roles "/home" [] { returnUrl := some "/reports" }
      (by decide)).1.1,
   ((claim6_canActivate_redirect_and_roles "/h" ["User"]
      { requiredRoles := some ["Admin", "User"] } (by decide)).2
      ["Admin", "User"] rfl (by decide)).1⟩

/-- C7: the roles derivation always yields an array: the scalar claim
`"Admin"` and the array claim `["Admin"]` both yield `["Admin"]`, and the
result is the empty array when the role claim or the whole profile is
absent. -/
theorem claim7_roles_normalization (prof : UserProfile) :
    roles none = [] ∧
    roles (some { prof with role := RoleClaim.absent }) = [] ∧
    roles (some { prof with role := RoleClaim.scalar "Admin" }) = ["Admin"] ∧
    roles (some { prof with role := RoleClaim.array ["Admin"] }) = ["Admin"] := by
  refine ⟨rfl, rfl, ?_, rfl⟩
  simp [roles]

/-- C9: when the URL qualifies for header attachment and the current session
yields a non-empty authorization header value, `authFetch` sends the
caller's headers with `Authorization` set to that value, overriding any
caller-supplied `Authorization` entry and leaving every other header
unchanged; when the URL does not qualify, or the header value is empty (no
session), the caller's headers are forwarded unchanged. -/
theorem claim9_authFetch_header_attachment (cfg : InterceptorConfig) (v url : String)
    (h : Headers) (resp : Response) :
    (shouldAddAuthHeader cfg url = true → v ≠ "" →
      (authFetch cfg v url h resp).sentHeaders = setHeader h "Authorization" v ∧
      lookupHeader (authFetch cfg v url h resp).sentHeaders "Authorization" = some v ∧
      (∀ k : String, k ≠ "Authorization" →
        lookupHeader (authFetch cfg v url h resp).sentHeaders k = lookupHeader h k)) ∧
    (shouldAddAuthHeader cfg url = false →
      (authFetch cfg v url h resp).sentHeaders = h) ∧
    (v = "" → (authFetch cfg v url h resp).sentHeaders = h) := by
  refine ⟨fun hs hv => ?_, fun hs => ?_, fun hv => ?_⟩
  · have hsent : (authFetch cfg v url h resp).sentHeaders =
        setHeader h "Authorization" v := by
      simp [authFetch, hs, hv]
    exact ⟨hsent,
      by rw [hsent]; exact lookupHeader_setHeader_same h "Authorization" v,
      fun k hk => by rw [hsent]; exact lookupHeader_setHeader_other h "Authorization" v k hk⟩
  · simp [authFetch, hs]
  · simp [authFetch, hv]

/-- C10: the `isAdmin` derivation is true exactly when the profile is
non-null and either its `admin` claim is strictly the boolean `true` or the
normalized roles contain the exact, case-sensitive string `"Administrator"`;
it is false for a null profile, and truthy non-boolean admin values such as
the string `"true"` do not count. -/
theorem claim10_isAdmin_characterization (p : Option UserProfile) :
    isAdmin none = false ∧
    (isAdmin p = true ↔ ∃ prof : UserProfile, p = some prof ∧
      (prof.admin = some (JsVal.bool true) ∨
        (roles (some prof)).contains "Administrator" = true)) ∧
    (∀ prof : UserProfile,
      prof.admin = some (JsVal.str "true") →
      (roles (some prof)).contains "Administrator" = false →
      isAdmin (some prof) = false) := by
  refine ⟨rfl, ?_, ?_⟩
  · cases p with
    | none => simp [isAdmin]
    | some prof =>
      by_cases hadm : prof.admin = some (JsVal.bool true) <;>
        simp [isAdmin, hadm]
  · intro prof hstr hrole
    have hadm : prof.admin ≠ some (JsVal.bool true) := by
      rw [hstr]; intro hcontra; cases hcontra
    have hunfold : isAdmin (some prof) =
        if prof.admin = some (JsVal.bool true) then true
        else (roles (some prof)).contains "Administrator" := rfl
    rw [hunfold, if_neg hadm]
    exact hrole

end SvelteAuth
